import Mathlib

/-!
Verification of the B-M mobile application (love-letter diary, feed and
Spotify playlist screens, plus a hand-rolled UI widget kit).

Strings from the TypeScript source are modelled as `List Char` so that
character-level operations (`trim`, `includes`, `split(',')`) stay
executable and provable.  Timestamps (`created_at`, ISO-8601 strings
ordered chronologically by the remote store) are modelled as naturals
ordered chronologically.  Asynchronous remote calls are modelled by
passing the call's outcome (`ok`/`err`) as an explicit argument; the
observable effects of a handler (alert boxes raised, rows handed to the
remote `insert` call, resulting component state) are returned in a
result record.
-/

namespace BM

/-- Shorthand for source-level strings. -/
abbrev Str := List Char

/-- Coerce a Lean string literal to the `List Char` representation. -/
def chars (s : String) : Str := s.toList

/-- JavaScript `String.prototype.trim`: drop leading and trailing
whitespace.  (JS trims the Unicode whitespace class; the application only
ever meets ASCII whitespace, covered by `Char.isWhitespace`.) -/
def jsTrim (s : Str) : Str :=
  ((s.dropWhile Char.isWhitespace).reverse.dropWhile Char.isWhitespace).reverse

/-- A modal alert raised via `Alert.alert(title, msg)`. -/
structure AlertBox where
  title : Str
  msg : Str
  deriving DecidableEq, Repr

/-- Outcome of a remote `insert` call: the store returns `{error}` with
`error` either null (`ok`) or truthy (`err`). -/
inductive InsertOutcome
  | ok
  | err
  deriving DecidableEq, Repr

/-! ## Diary screen, simple revision (src/src/components/DiarySection.tsx) -/

/-- Form state of the simple `DiarySection` (no photo). -/
structure DiaryForm where
  message : Str
  author : Str
  deriving DecidableEq, Repr

/-- A row handed to `supabase.from("love_letters").insert([...])`. -/
structure LetterInsert where
  message : Str
  author : Str
  image_url : Option Str
  deriving DecidableEq, Repr

/-- Observable result of one run of a Diary submit handler. -/
structure DiaryResult where
  alerts : List AlertBox
  inserts : List LetterInsert
  formAfter : DiaryForm
  deriving DecidableEq, Repr

/-- The "Campos requeridos" validation alert. -/
def camposAlert : AlertBox :=
  ⟨chars "Campos requeridos", chars "Por favor escribe tu nombre y mensaje"⟩

/-- The remote-failure alert of the Diary submit handler. -/
def cartaErrorAlert : AlertBox :=
  ⟨chars "Error", chars "No se pudo enviar tu carta. Inténtalo de nuevo."⟩

/-- The success confirmation alert of the Diary submit handler. -/
def cartaEnviadaAlert : AlertBox :=
  ⟨chars "Carta enviada", chars "Tu carta ha sido enviada con éxito. ¡Gracias!"⟩

/-- `handleSubmit` of the simple `DiarySection`: reject when the trimmed
message or author is empty (JS falsiness of the trimmed string);
otherwise insert one row with the trimmed fields; on success the alert's
OK button clears message and author; on remote error the form is left
untouched. -/
def handleSubmit (f : DiaryForm) (remote : InsertOutcome) : DiaryResult :=
  if jsTrim f.message = [] ∨ jsTrim f.author = [] then
    { alerts := [camposAlert], inserts := [], formAfter := f }
  else
    let row : LetterInsert :=
      { message := jsTrim f.message, author := jsTrim f.author, image_url := none }
    match remote with
    | .err => { alerts := [cartaErrorAlert], inserts := [row], formAfter := f }
    | .ok =>
      { alerts := [cartaEnviadaAlert], inserts := [row]
        formAfter := { message := [], author := [] } }

/-! ## Diary screen, photo revision (src/unnamed/part_001) -/

/-- Form state of the photo revision: an optionally selected gallery
image URI. -/
structure DiaryFormRich where
  message : Str
  author : Str
  image : Option Str
  deriving DecidableEq, Repr

/-- Outcome of the client-side `imageToBase64` conversion: the base64
payload on success, or a thrown error. -/
inductive ConvOutcome
  | ok (b64 : Str)
  | err
  deriving DecidableEq, Repr

/-- Observable result of the photo-revision submit handler. -/
structure RichResult where
  alerts : List AlertBox
  inserts : List LetterInsert
  formAfter : DiaryFormRich
  deriving DecidableEq, Repr

/-- Alert shown when the image conversion throws: the letter is still
sent, without the image. -/
def imagenProblemaAlert : AlertBox :=
  ⟨chars "Error", chars "Hubo un problema al procesar la imagen. La carta se enviará sin imagen."⟩

/-- The data-URI head the handler prepends when storing the image
(template string `data:image/jpeg;base64,${imageBase64}`). -/
def dataUriStart : Str := chars "data:image/jpeg;base64,"

/-- The stored `image_url` value built from a base64 payload. -/
def storedImageUrl (b64 : Str) : Str := dataUriStart ++ b64

/-- `handleSubmit` of the photo revision (src/unnamed/part_001): after
the required-fields check, an image (when selected) is converted to
base64; a conversion error is caught, alerted, and the payload reset to
null; the row is then inserted with `image_url` set to the data URI when
the payload is truthy (non-empty) and null otherwise.  On success only
`setMessage("")` and `setAuthor("")` run — the selected image is not
cleared.  On remote error the form is untouched. -/
def handleSubmitRich (f : DiaryFormRich) (conv : ConvOutcome)
    (remote : InsertOutcome) : RichResult :=
  if jsTrim f.message = [] ∨ jsTrim f.author = [] then
    { alerts := [camposAlert], inserts := [], formAfter := f }
  else
    let convStep : Option Str × List AlertBox :=
      match f.image with
      | none => (none, [])
      | some _ =>
        match conv with
        | .ok b64 => (some b64, [])
        | .err => (none, [imagenProblemaAlert])
    let imageBase64 := convStep.1
    let row : LetterInsert :=
      { message := jsTrim f.message, author := jsTrim f.author
        image_url :=
          match imageBase64 with
          | some b64 => if b64 = [] then none else some (storedImageUrl b64)
          | none => none }
    match remote with
    | .err =>
      { alerts := convStep.2 ++ [cartaErrorAlert], inserts := [row], formAfter := f }
    | .ok =>
      { alerts := convStep.2 ++ [cartaEnviadaAlert], inserts := [row]
        formAfter := { f with message := [], author := [] } }

/-! ## Music screen (src/src/components/MusicSection.tsx) -/

/-- Form state of the "Agregar Playlist" modal. -/
structure PlaylistForm where
  name : Str
  description : Str
  spotify_url : Str
  deriving DecidableEq, Repr

/-- A row handed to `supabase.from("music_playlists").insert([...])`;
`description || null` maps the empty string to null. -/
structure PlaylistInsert where
  name : Str
  description : Option Str
  spotify_url : Str
  deriving DecidableEq, Repr

/-- Observable result of one run of `handleAddPlaylist`. -/
structure MusicResult where
  alerts : List AlertBox
  inserts : List PlaylistInsert
  formAfter : PlaylistForm
  modalVisible : Bool
  didRefetch : Bool
  deriving DecidableEq, Repr

/-- Required-fields alert of the playlist form. -/
def obligatoriosAlert : AlertBox :=
  ⟨chars "Error", chars "El nombre y la URL de Spotify son obligatorios"⟩

/-- Alert raised when the URL fails the Spotify-domain check. -/
def urlInvalidaAlert : AlertBox :=
  ⟨chars "Error", chars "Por favor ingresa una URL válida de Spotify"⟩

/-- Alert raised when the remote playlist insert fails. -/
def playlistErrorAlert : AlertBox :=
  ⟨chars "Error", chars "No se pudo agregar la playlist. Inténtalo de nuevo."⟩

/-- The Spotify domain marker the URL must contain
(`spotify_url.includes("open.spotify.com")`). -/
def spotifyMarker : Str := chars "open.spotify.com"

/-- `handleAddPlaylist`: reject when name or URL is empty (JS falsiness),
then when the URL does not contain the Spotify marker; otherwise insert
one row.  Success resets the form, closes the modal and refetches; a
remote error is caught and alerted with the modal left open. -/
def handleAddPlaylist (p : PlaylistForm) (remote : InsertOutcome) : MusicResult :=
  if p.name = [] ∨ p.spotify_url = [] then
    { alerts := [obligatoriosAlert], inserts := [], formAfter := p
      modalVisible := true, didRefetch := false }
  else if ¬ spotifyMarker <:+: p.spotify_url then
    { alerts := [urlInvalidaAlert], inserts := [], formAfter := p
      modalVisible := true, didRefetch := false }
  else
    let row : PlaylistInsert :=
      { name := p.name
        description := if p.description = [] then none else some p.description
        spotify_url := p.spotify_url }
    match remote with
    | .err =>
      { alerts := [playlistErrorAlert], inserts := [row], formAfter := p
        modalVisible := true, didRefetch := false }
    | .ok =>
      { alerts := [], inserts := [row]
        formAfter := { name := [], description := [], spotify_url := [] }
        modalVisible := false, didRefetch := true }

/-! ## Remote store rows and the Feed/Music fetch state machines -/

/-- A persisted `love_letters` row as the Feed screen sees it.
`created_at` is the creation timestamp, modelled as a natural ordered
chronologically. -/
structure LoveLetter where
  id : Str
  message : Str
  author : Str
  image_url : Option Str
  created_at : Nat
  deriving DecidableEq, Repr

/-- A persisted `music_playlists` row. -/
structure MusicPlaylist where
  id : Str
  name : Str
  description : Option Str
  spotify_url : Str
  created_at : Nat
  deriving DecidableEq, Repr

/-- Newest-first comparison used by `.order("created_at", {ascending:
false})` on `love_letters`. -/
def letterLE (a b : LoveLetter) : Prop := b.created_at ≤ a.created_at

instance : DecidableRel letterLE := fun a b =>
  inferInstanceAs (Decidable (b.created_at ≤ a.created_at))

instance : IsTotal LoveLetter letterLE :=
  ⟨fun a b => Nat.le_total b.created_at a.created_at⟩

instance : IsTrans LoveLetter letterLE :=
  ⟨fun _ _ _ h1 h2 => Nat.le_trans h2 h1⟩

/-- The remote store's answer to
`from("love_letters").select("*").order("created_at", {ascending:
false})`: all rows, ordered by creation timestamp descending. -/
def selectLettersNewestFirst (store : List LoveLetter) : List LoveLetter :=
  List.insertionSort letterLE store

/-- Result of one run of a fetch handler: how the remote response was
handled.  `consoleLogs` counts `console.error` calls, `requests` the
network requests issued by this run (the handler never retries). -/
structure FetchEffects where
  consoleLogs : Nat
  alerts : List AlertBox
  requests : Nat
  deriving DecidableEq, Repr

/-- Component state of `FeedSection`. -/
structure FeedState where
  letters : List LoveLetter
  loading : Bool
  refreshing : Bool
  deriving DecidableEq, Repr

/-- The remote response seen by a fetch handler: data rows, a truthy
`error` field, or a thrown exception. -/
inductive FetchResponse (α : Type)
  | ok (rows : List α)
  | err
  | exn
  deriving DecidableEq, Repr

/-- `fetchLetters` of `FeedSection`: on data, replace the list; on a
truthy `error` or a thrown exception, log to the console and return,
leaving the list as it was; `finally` stops both the loading and the
refreshing indicator.  No alert is raised and no second request is
issued. -/
def fetchLetters (s : FeedState) (resp : FetchResponse LoveLetter) :
    FeedState × FetchEffects :=
  match resp with
  | .ok rows =>
    ({ letters := rows, loading := false, refreshing := false },
     { consoleLogs := 0, alerts := [], requests := 1 })
  | .err =>
    ({ s with loading := false, refreshing := false },
     { consoleLogs := 1, alerts := [], requests := 1 })
  | .exn =>
    ({ s with loading := false, refreshing := false },
     { consoleLogs := 1, alerts := [], requests := 1 })

/-- Component state of `MusicSection` relevant to fetching. -/
structure MusicState where
  playlists : List MusicPlaylist
  loading : Bool
  refreshing : Bool
  deriving DecidableEq, Repr

/-- `fetchPlaylists` of `MusicSection`: same shape as `fetchLetters`. -/
def fetchPlaylists (s : MusicState) (resp : FetchResponse MusicPlaylist) :
    MusicState × FetchEffects :=
  match resp with
  | .ok rows =>
    ({ playlists := rows, loading := false, refreshing := false },
     { consoleLogs := 0, alerts := [], requests := 1 })
  | .err =>
    ({ s with loading := false, refreshing := false },
     { consoleLogs := 1, alerts := [], requests := 1 })
  | .exn =>
    ({ s with loading := false, refreshing := false },
     { consoleLogs := 1, alerts := [], requests := 1 })

/-! ## Switch widget (src/src/components/ui/switch.tsx) -/

/-- State and props of one `Switch`: the internal `uncontrolledChecked`
state, the optional controlled `checked` prop, and `disabled`. -/
structure SwitchState where
  uncontrolledChecked : Bool
  controlledChecked : Option Bool
  disabled : Bool
  deriving DecidableEq, Repr

/-- `checked = isControlled ? controlledChecked : uncontrolledChecked`. -/
def resolvedChecked (s : SwitchState) : Bool :=
  s.controlledChecked.getD s.uncontrolledChecked

/-- `handleToggle`: no-op when disabled; otherwise compute
`newValue = !checked`, write it to the internal state only when
uncontrolled, and invoke `onCheckedChange(newValue)`.  The second
component lists the values passed to `onCheckedChange`. -/
def handleToggle (s : SwitchState) : SwitchState × List Bool :=
  if s.disabled then (s, [])
  else
    let newValue := ! resolvedChecked s
    (if s.controlledChecked.isSome then s
     else { s with uncontrolledChecked := newValue },
     [newValue])

/-- Resolved checked state after one activation.  In uncontrolled mode
this reads the new internal state; in controlled mode the rendered value
is the prop, so we take the value the parent is handed by the callback
(the spec's controlled-mode contract is that the parent owns the
transition), keeping the current value when no callback fired. -/
def nextResolvedChecked (s : SwitchState) : Bool :=
  let r := handleToggle s
  match s.controlledChecked with
  | none => resolvedChecked r.1
  | some v => r.2.headD v

/-! ## Toggle widget (src/src/components/ui/toggle-native.tsx) -/

/-- State and props of one `Toggle`: internal `isPressedState`, optional
controlled `pressed` prop, and `disabled`. -/
structure ToggleState where
  isPressedState : Bool
  pressed : Option Bool
  disabled : Bool
  deriving DecidableEq, Repr

/-- `isPressedValue = pressed !== undefined ? pressed : isPressedState`. -/
def resolvedPressed (t : ToggleState) : Bool :=
  t.pressed.getD t.isPressedState

/-- `handlePress`: no-op when disabled; otherwise compute
`newValue = !isPressedValue`, write it to the internal state only when
`pressed` is undefined, and invoke `onPressedChange(newValue)`. -/
def handlePress (t : ToggleState) : ToggleState × List Bool :=
  if t.disabled then (t, [])
  else
    let newValue := ! resolvedPressed t
    (if t.pressed.isSome then t
     else { t with isPressedState := newValue },
     [newValue])

/-- Resolved pressed state after one activation, with the controlled
mode read through the parent callback as in `nextResolvedChecked`. -/
def nextResolvedPressed (t : ToggleState) : Bool :=
  let r := handlePress t
  match t.pressed with
  | none => resolvedPressed r.1
  | some v => r.2.headD v

/-! ## Accordion (src/src/components/ui/accordion.tsx) -/

/-- The accordion `type` prop. -/
inductive AccType
  | single
  | multiple
  deriving DecidableEq, Repr

/-- The accordion value: a string for `single`, an array for
`multiple` (the source types it `string | string[]`). -/
inductive AccValue
  | strv (s : Str)
  | arr (vs : List Str)
  deriving DecidableEq, Repr

/-- `isItemOpen`: array values use `includes`, string values `===`. -/
def isItemOpen (cur : AccValue) (item : Str) : Bool :=
  match cur with
  | .arr vs => vs.contains item
  | .strv s => s == item

/-- The new value computed by `toggleItem`: for `single`,
`currentValue === itemValue ? "" : itemValue` (a strict equality between
an array and a string is false, hence the `.arr` case yields the item);
for `multiple`, remove or append within the array, and replace a
non-array value by `[itemValue]`. -/
def toggleItem (type : AccType) (cur : AccValue) (item : Str) : AccValue :=
  match type with
  | .single =>
    .strv (match cur with
      | .strv s => if s = item then [] else item
      | .arr _ => item)
  | .multiple =>
    match cur with
    | .arr vs =>
      .arr (if vs.contains item then vs.filter (fun v => v ≠ item) else vs ++ [item])
    | .strv _ => .arr [item]

/-- State and props of one `Accordion`: internal `value` state and the
optional controlled `value` prop. -/
structure AccordionState where
  internalValue : AccValue
  controlledValue : Option AccValue
  deriving DecidableEq, Repr

/-- `currentValue = isControlled ? controlledValue : value`. -/
def accResolvedValue (a : AccordionState) : AccValue :=
  a.controlledValue.getD a.internalValue

/-- One `toggleItem` activation on the `Accordion` component: compute
the new value, write it to the internal state only when uncontrolled,
and invoke `onValueChange(newValue)` (unconditionally — the accordion
has no disabled prop). -/
def accActivate (type : AccType) (a : AccordionState) (item : Str) :
    AccordionState × List AccValue :=
  let newValue := toggleItem type (accResolvedValue a) item
  (if a.controlledValue.isSome then a
   else { a with internalValue := newValue },
   [newValue])

/-! ## Base64 (the encoding used by `FileReader.readAsDataURL` on the
image blob, and by the data-URI image pipeline).  Bytes are naturals
below 256. -/

/-- The base64 alphabet. -/
def b64Chars : Str :=
  chars "ABCDEFGHIJKLMNOPQRSTUVWXYZabcdefghijklmnopqrstuvwxyz0123456789+/"

/-- The character for a sextet value. -/
def b64Char (n : Nat) : Char := b64Chars.getD n 'A'

/-- The sextet value of an alphabet character. -/
def b64Val (c : Char) : Nat := b64Chars.findIdx (fun d => d == c)

/-- Standard base64 of a byte list, three bytes to four characters with
`=` padding. -/
def base64Encode : List Nat → Str
  | [] => []
  | [a] => [b64Char (a / 4), b64Char (a % 4 * 16), '=', '=']
  | [a, b] => [b64Char (a / 4), b64Char (a % 4 * 16 + b / 16), b64Char (b % 16 * 4), '=']
  | a :: b :: c :: rest =>
    b64Char (a / 4) :: b64Char (a % 4 * 16 + b / 16) ::
      b64Char (b % 16 * 4 + c / 64) :: b64Char (c % 64) :: base64Encode rest

/-- Standard base64 decoding, the inverse used when the stored payload
is written back out as binary (`FileSystem.writeAsStringAsync` with
Base64 encoding). -/
def base64Decode : Str → List Nat
  | c1 :: c2 :: c3 :: c4 :: rest =>
    if c3 = '=' then [b64Val c1 * 4 + b64Val c2 / 16]
    else if c4 = '=' then
      [b64Val c1 * 4 + b64Val c2 / 16, b64Val c2 % 16 * 16 + b64Val c3 / 4]
    else
      (b64Val c1 * 4 + b64Val c2 / 16) :: (b64Val c2 % 16 * 16 + b64Val c3 / 4) ::
        (b64Val c3 % 4 * 64 + b64Val c4) :: base64Decode rest
  | _ => []

theorem b64Val_b64Char : ∀ n < 64, b64Val (b64Char n) = n := by decide

theorem b64Char_ne_pad : ∀ n < 64, b64Char n ≠ '=' := by decide

theorem b64Char_ne_comma (n : Nat) : b64Char n ≠ ',' := by
  by_cases h : n < 64
  · have h64 : ∀ m < 64, b64Char m ≠ ',' := by decide
    exact h64 n h
  · unfold b64Char
    rw [List.getD_eq_default]
    · decide
    · have : b64Chars.length = 64 := by decide
      omega

theorem base64Decode_encode (bs : List Nat) (hb : ∀ b ∈ bs, b < 256) :
    base64Decode (base64Encode bs) = bs := by
  suffices h : ∀ n (l : List Nat), l.length ≤ n → (∀ b ∈ l, b < 256) →
      base64Decode (base64Encode l) = l from h bs.length bs le_rfl hb
  intro n
  induction n with
  | zero =>
    intro l hl _
    rw [Nat.le_zero, List.length_eq_zero] at hl
    subst hl
    rfl
  | succ n ih =>
    intro l hl hb
    match l with
    | [] => rfl
    | [a] =>
      have ha : a < 256 := hb a (by simp)
      rw [base64Encode, base64Decode]
      rw [if_pos rfl]
      rw [b64Val_b64Char _ (by omega), b64Val_b64Char _ (by omega)]
      congr 1
      omega
    | [a, b] =>
      have ha : a < 256 := hb a (by simp)
      have hbb : b < 256 := hb b (by simp)
      rw [base64Encode, base64Decode]
      rw [if_neg (b64Char_ne_pad _ (by omega)), if_pos rfl]
      rw [b64Val_b64Char _ (by omega), b64Val_b64Char _ (by omega),
        b64Val_b64Char _ (by omega)]
      congr 1
      · omega
      · congr 1
        omega
    | a :: b :: c :: rest =>
      have ha : a < 256 := hb a (by simp)
      have hbb : b < 256 := hb b (by simp)
      have hc : c < 256 := hb c (by simp)
      rw [base64Encode, base64Decode]
      rw [if_neg (b64Char_ne_pad _ (by omega)), if_neg (b64Char_ne_pad _ (by omega))]
      rw [b64Val_b64Char _ (by omega), b64Val_b64Char _ (by omega),
        b64Val_b64Char _ (by omega), b64Val_b64Char _ (by omega)]
      have hrest : base64Decode (base64Encode rest) = rest := by
        refine ih rest ?_ fun x hx => hb x (by simp [hx])
        have := hl
        simp only [List.length_cons] at this
        omega
      rw [hrest]
      congr 1
      · omega
      · congr 1
        · omega
        · congr 1
          omega

theorem comma_not_mem_base64Encode (bs : List Nat) :
    ',' ∉ base64Encode bs := by
  suffices h : ∀ n (l : List Nat), l.length ≤ n → ',' ∉ base64Encode l from
    h bs.length bs le_rfl
  intro n
  induction n with
  | zero =>
    intro l hl
    rw [Nat.le_zero, List.length_eq_zero] at hl
    subst hl
    simp [base64Encode]
  | succ n ih =>
    intro l hl
    match l with
    | [] => simp [base64Encode]
    | [a] =>
      simp only [base64Encode, List.mem_cons, List.not_mem_nil, or_false]
      push_neg
      refine ⟨?_, ?_, by decide, by decide⟩ <;> exact fun h => b64Char_ne_comma _ h.symm
    | [a, b] =>
      simp only [base64Encode, List.mem_cons, List.not_mem_nil, or_false]
      push_neg
      refine ⟨?_, ?_, ?_, by decide⟩ <;> exact fun h => b64Char_ne_comma _ h.symm
    | a :: b :: c :: rest =>
      have hrest : ',' ∉ base64Encode rest := by
        refine ih rest ?_
        simp only [List.length_cons] at hl
        omega
      simp only [base64Encode, List.mem_cons]
      push_neg
      refine ⟨?_, ?_, ?_, ?_, hrest⟩ <;> exact fun h => b64Char_ne_comma _ h.symm

/-- Everything after the first comma (the tail the code reaches with
`split(',')` before indexing). -/
def afterFirstComma : Str → Str
  | [] => []
  | c :: cs => if c = ',' then cs else afterFirstComma cs

/-- JavaScript `s.split(',')[1]`: the segment between the first and the
second comma. -/
def secondCommaField (s : Str) : Str :=
  (afterFirstComma s).takeWhile (fun c => c != ',')

theorem afterFirstComma_dataUriStart (e : Str) :
    afterFirstComma (dataUriStart ++ e) = e := by
  show afterFirstComma (chars "data:image/jpeg;base64," ++ e) = e
  simp [chars, afterFirstComma]

theorem takeWhile_of_no_comma (e : Str) (h : ',' ∉ e) :
    e.takeWhile (fun c => c != ',') = e := by
  induction e with
  | nil => rfl
  | cons c cs ih =>
    simp only [List.mem_cons] at h
    push_neg at h
    rw [List.takeWhile_cons, if_pos (by simpa using Ne.symm h.1), ih h.2]

theorem secondCommaField_stored (bs : List Nat) :
    secondCommaField (storedImageUrl (base64Encode bs)) = base64Encode bs := by
  rw [storedImageUrl, secondCommaField, afterFirstComma_dataUriStart,
    takeWhile_of_no_comma _ (comma_not_mem_base64Encode bs)]

/-- `imageToBase64` (src/unnamed/part_001): read the image bytes through
`FileReader.readAsDataURL`, which yields a data URI whose payload is the
base64 of the bytes, then keep only `split(',')[1]`.  The reader's MIME
head is the JPEG one the picker produces. -/
def imageToBase64 (bytes : List Nat) : Str :=
  secondCommaField (dataUriStart ++ base64Encode bytes)

theorem imageToBase64_eq_encode (bytes : List Nat) :
    imageToBase64 bytes = base64Encode bytes := by
  rw [imageToBase64, ← storedImageUrl, secondCommaField_stored]

/-- The data-URI branch of `handleDownloadImage` (FeedSection): take
`split(',')[1]` of the stored URL and write it out base64-decoded. -/
def handleDownloadImageData (imageUrl : Str) : List Nat :=
  base64Decode (secondCommaField imageUrl)

/-! ## Claim theorems -/

/-- Claim C1: for every Diary submission whose author or message is
empty or whitespace-only after trimming, the submit action is rejected
with the modal alert "Campos requeridos" and no insert call reaches the
remote store, in both the simple and the photo revision of the
screen. -/
theorem diary_required_fields_reject :
    (∀ (f : DiaryForm) (r : InsertOutcome),
      jsTrim f.message = [] ∨ jsTrim f.author = [] →
        (handleSubmit f r).alerts = [camposAlert] ∧ (handleSubmit f r).inserts = []) ∧
    (∀ (f : DiaryFormRich) (c : ConvOutcome) (r : InsertOutcome),
      jsTrim f.message = [] ∨ jsTrim f.author = [] →
        (handleSubmitRich f c r).alerts = [camposAlert] ∧
        (handleSubmitRich f c r).inserts = []) := by
  constructor
  · intro f r h
    simp [handleSubmit, if_pos h]
  · intro f c r h
    simp [handleSubmitRich, if_pos h]

/-- Witness for C1: author `""`, message `"hola"` is rejected with the
alert and no insert. -/
theorem diary_required_fields_reject_witness :
    (handleSubmit ⟨chars "hola", []⟩ .ok).alerts = [camposAlert] ∧
    (handleSubmit ⟨chars "hola", []⟩ .ok).inserts = [] :=
  diary_required_fields_reject.1 ⟨chars "hola", []⟩ .ok (Or.inr (by decide))

/-- Counterexample to C2 as stated: the submission with empty name and
URL "https://example.com/abc" has a URL lacking the Spotify marker, yet
its rejection alert is the required-fields one, not "Por favor ingresa
una URL válida de Spotify". -/
theorem music_url_alert_counterexample :
    (handleAddPlaylist ⟨[], [], chars "https://example.com/abc"⟩ .ok).alerts
        = [obligatoriosAlert] ∧
    urlInvalidaAlert ∉
      (handleAddPlaylist ⟨[], [], chars "https://example.com/abc"⟩ .ok).alerts ∧
    obligatoriosAlert ≠ urlInvalidaAlert := by decide

/-- Claim C2 (amended): any submission whose URL lacks the Spotify
marker is rejected locally with zero insert calls; when additionally the
name and URL are non-empty, the rejection alert is "Por favor ingresa
una URL válida de Spotify" (with an empty name or URL the required-
fields alert fires first); a URL containing the marker together with a
non-empty name is accepted and handed to the insert call. -/
theorem music_url_validation :
    ∀ (p : PlaylistForm) (r : InsertOutcome),
      (¬ spotifyMarker <:+: p.spotify_url →
        (handleAddPlaylist p r).inserts = [] ∧
        (handleAddPlaylist p r).didRefetch = false) ∧
      (p.name ≠ [] → p.spotify_url ≠ [] → ¬ spotifyMarker <:+: p.spotify_url →
        (handleAddPlaylist p r).alerts = [urlInvalidaAlert]) ∧
      (p.name ≠ [] → spotifyMarker <:+: p.spotify_url →
        (handleAddPlaylist p r).inserts =
          [⟨p.name, if p.description = [] then none else some p.description,
            p.spotify_url⟩]) := by
  intro p r
  refine ⟨?_, ?_, ?_⟩
  · intro hm
    by_cases h1 : p.name = [] ∨ p.spotify_url = []
    · simp [handleAddPlaylist, if_pos h1]
    · simp [handleAddPlaylist, if_neg h1, if_pos hm]
  · intro hn hu hm
    have h1 : ¬ (p.name = [] ∨ p.spotify_url = []) := by tauto
    simp only [handleAddPlaylist, if_neg h1, if_pos hm]
  · intro hn hm
    have hu : p.spotify_url ≠ [] := by
      intro h
      rw [h] at hm
      have : spotifyMarker = [] := List.eq_nil_of_infix_nil hm
      exact absurd this (by decide)
    have h1 : ¬ (p.name = [] ∨ p.spotify_url = []) := by tauto
    have h2 : ¬ ¬ spotifyMarker <:+: p.spotify_url := not_not_intro hm
    simp only [handleAddPlaylist, if_neg h1, if_neg h2]
    cases r <;> rfl

/-- Witness for C2: a non-Spotify URL with a non-empty name draws the
URL alert; the Spotify playlist URL with a non-empty name is inserted. -/
theorem music_url_validation_witness :
    (handleAddPlaylist ⟨chars "Mix", [], chars "https://example.com/abc"⟩ .ok).alerts
        = [urlInvalidaAlert] ∧
    (handleAddPlaylist
        ⟨chars "Mix", [], chars "https://open.spotify.com/playlist/xyz"⟩ .ok).inserts
      = [⟨chars "Mix", none, chars "https://open.spotify.com/playlist/xyz"⟩] := by
  constructor
  · exact (music_url_validation ⟨chars "Mix", [], chars "https://example.com/abc"⟩
      .ok).2.1 (by decide) (by decide) (by decide)
  · have h := (music_url_validation
      ⟨chars "Mix", [], chars "https://open.spotify.com/playlist/xyz"⟩ .ok).2.2
      (by decide) (by decide)
    simpa using h

/-- Claim C3: the Feed fetch returns all stored LoveLetter rows ordered
by creation timestamp descending, so a row whose timestamp is strictly
later than every other row's appears first, before every older row. -/
theorem feed_newest_first (store : List LoveLetter) (newRow : LoveLetter)
    (hmem : newRow ∈ store)
    (hmax : ∀ r ∈ store, r ≠ newRow → r.created_at < newRow.created_at) :
    List.Perm (selectLettersNewestFirst store) store ∧
    List.Sorted letterLE (selectLettersNewestFirst store) ∧
    (selectLettersNewestFirst store).head? = some newRow ∧
    ∀ r ∈ store, r ≠ newRow → r ∈ (selectLettersNewestFirst store).tail := by
  have hperm : List.Perm (selectLettersNewestFirst store) store :=
    List.perm_insertionSort letterLE store
  have hsorted : List.Sorted letterLE (selectLettersNewestFirst store) :=
    List.sorted_insertionSort letterLE store
  have hmem' : newRow ∈ selectLettersNewestFirst store := hperm.mem_iff.mpr hmem
  obtain ⟨hd, tl, h⟩ : ∃ hd tl, selectLettersNewestFirst store = hd :: tl := by
    cases hsel : selectLettersNewestFirst store with
    | nil => rw [hsel] at hmem'; cases hmem'
    | cons a b => exact ⟨a, b, rfl⟩
  have hhd : hd = newRow := by
    by_contra hne
    have hhd_mem : hd ∈ store := hperm.subset (h ▸ List.mem_cons_self hd tl)
    have hlt := hmax hd hhd_mem hne
    have hnewtl : newRow ∈ tl := by
      rw [h] at hmem'
      rcases List.mem_cons.mp hmem' with h1 | h1
      · exact absurd h1.symm hne
      · exact h1
    have hs2 := hsorted
    rw [h] at hs2
    have hle : letterLE hd newRow := List.rel_of_sorted_cons hs2 newRow hnewtl
    unfold letterLE at hle
    omega
  subst hhd
  refine ⟨hperm, hsorted, by rw [h]; rfl, ?_⟩
  intro r hr hrne
  have hrsel : r ∈ selectLettersNewestFirst store := hperm.mem_iff.mpr hr
  rw [h] at hrsel ⊢
  rcases List.mem_cons.mp hrsel with h1 | h1
  · exact absurd h1 hrne
  · simpa using h1

/-- Witness for C3: in a two-row store the later row heads the fetch
result. -/
theorem feed_newest_first_witness :
    (selectLettersNewestFirst
        [⟨chars "1", chars "m", chars "a", none, 1⟩,
         ⟨chars "2", chars "n", chars "b", none, 2⟩]).head?
      = some ⟨chars "2", chars "n", chars "b", none, 2⟩ :=
  (feed_newest_first _ ⟨chars "2", chars "n", chars "b", none, 2⟩
    (by decide) (by decide)).2.2.1

/-- Counterexample to C4 as stated: after a valid submission with a
selected photo and a successful remote insert, the selected photo is
still in the form state — `setImage(null)` is never called in the
success handler, only message and author are cleared. -/
theorem diary_success_keeps_photo_counterexample :
    (handleSubmitRich ⟨chars "hola", chars "Ana", some (chars "file:a.jpg")⟩
        (.ok (chars "QQ==")) .ok).formAfter.image = some (chars "file:a.jpg") ∧
    some (chars "file:a.jpg") ≠ (none : Option Str) := by decide

/-- Claim C4 (amended): for every Diary submission passing local
validation, a successful remote insert clears the author and message
fields and shows the confirmation alert, while the selected photo is
left as it was; a failed remote insert shows the error alert and leaves
every form field unchanged.  The simple revision (no photo field)
clears both fields on success and leaves them on failure. -/
theorem diary_submit_state :
    (∀ (f : DiaryFormRich) (c : ConvOutcome),
      jsTrim f.message ≠ [] → jsTrim f.author ≠ [] →
        (handleSubmitRich f c .ok).formAfter =
            { f with message := [], author := [] } ∧
        cartaEnviadaAlert ∈ (handleSubmitRich f c .ok).alerts ∧
        (handleSubmitRich f c .err).formAfter = f ∧
        cartaErrorAlert ∈ (handleSubmitRich f c .err).alerts) ∧
    (∀ f : DiaryForm,
      jsTrim f.message ≠ [] → jsTrim f.author ≠ [] →
        (handleSubmit f .ok).formAfter = ⟨[], []⟩ ∧
        cartaEnviadaAlert ∈ (handleSubmit f .ok).alerts ∧
        (handleSubmit f .err).formAfter = f ∧
        cartaErrorAlert ∈ (handleSubmit f .err).alerts) := by
  constructor
  · intro f c hm ha
    have hcond : ¬ (jsTrim f.message = [] ∨ jsTrim f.author = []) := by tauto
    cases hi : f.image <;> cases c <;>
      simp [handleSubmitRich, hcond, hi]
  · intro f hm ha
    have hcond : ¬ (jsTrim f.message = [] ∨ jsTrim f.author = []) := by tauto
    simp [handleSubmit, hcond]

/-- Witness for C4: a valid submission with a photo, on success, keeps
the photo while clearing author and message. -/
theorem diary_submit_state_witness :
    (handleSubmitRich ⟨chars "hola", chars "Ana", some (chars "u")⟩
        (.ok (chars "QQ==")) .ok).formAfter =
      ⟨[], [], some (chars "u")⟩ :=
  ((diary_submit_state.1 ⟨chars "hola", chars "Ana", some (chars "u")⟩
    (.ok (chars "QQ==")) (by decide) (by decide)).1)

theorem base64Encode_ne_nil (bs : List Nat) (h : bs ≠ []) :
    base64Encode bs ≠ [] := by
  match bs with
  | [] => exact absurd rfl h
  | [a] => simp [base64Encode]
  | [a, b] => simp [base64Encode]
  | a :: b :: c :: rest => simp [base64Encode]

/-- Claim C5: a letter submitted with a photo stores exactly the data-
URI prefix "data:image/jpeg;base64," concatenated with the base64 of
the image bytes, and the fetch-side extraction (`split(',')[1]` followed
by a base64 decode) returns exactly the original bytes. -/
theorem photo_base64_roundtrip (bytes : List Nat) (hb : ∀ b ∈ bytes, b < 256)
    (hne : bytes ≠ []) (f : DiaryFormRich) (r : InsertOutcome) (uri : Str)
    (hm : jsTrim f.message ≠ []) (ha : jsTrim f.author ≠ [])
    (hi : f.image = some uri) :
    (handleSubmitRich f (.ok (imageToBase64 bytes)) r).inserts =
      [⟨jsTrim f.message, jsTrim f.author,
        some (dataUriStart ++ base64Encode bytes)⟩] ∧
    handleDownloadImageData (dataUriStart ++ base64Encode bytes) = bytes := by
  have hcond : ¬ (jsTrim f.message = [] ∨ jsTrim f.author = []) := by tauto
  constructor
  · rw [imageToBase64_eq_encode]
    have henc := base64Encode_ne_nil bytes hne
    cases r <;>
      simp [handleSubmitRich, hcond, hi, henc, storedImageUrl]
  · rw [handleDownloadImageData, ← storedImageUrl, secondCommaField_stored,
      base64Decode_encode bytes hb]

/-- Witness for C5: the three bytes 1, 2, 3 survive the store/fetch
pipeline. -/
theorem photo_base64_roundtrip_witness :
    (handleSubmitRich ⟨chars "hola", chars "Ana", some (chars "u")⟩
        (.ok (imageToBase64 [1, 2, 3])) .ok).inserts =
      [⟨jsTrim (chars "hola"), jsTrim (chars "Ana"),
        some (dataUriStart ++ base64Encode [1, 2, 3])⟩] ∧
    handleDownloadImageData (dataUriStart ++ base64Encode [1, 2, 3]) = [1, 2, 3] :=
  photo_base64_roundtrip [1, 2, 3] (by decide) (by decide)
    ⟨chars "hola", chars "Ana", some (chars "u")⟩ .ok (chars "u")
    (by decide) (by decide) rfl

/-- Claim C6: when the controlled value prop is supplied, an activation
of the switch, toggle or accordion never mutates the widget's internal
state copy; it only invokes the parent callback with the computed next
value, and the rendered state resolves to the externally supplied
value. -/
theorem controlled_widgets_defer :
    (∀ (s : SwitchState) (v : Bool), s.controlledChecked = some v →
      (handleToggle s).1 = s ∧ resolvedChecked s = v ∧
      (s.disabled = false → (handleToggle s).2 = [!v])) ∧
    (∀ (t : ToggleState) (v : Bool), t.pressed = some v →
      (handlePress t).1 = t ∧ resolvedPressed t = v ∧
      (t.disabled = false → (handlePress t).2 = [!v])) ∧
    (∀ (ty : AccType) (a : AccordionState) (v : AccValue) (item : Str),
      a.controlledValue = some v →
      (accActivate ty a item).1 = a ∧ accResolvedValue a = v ∧
      (accActivate ty a item).2 = [toggleItem ty v item]) := by
  refine ⟨?_, ?_, ?_⟩
  · rintro ⟨u, c, d⟩ v hv
    cases hv
    cases d <;> simp [handleToggle, resolvedChecked]
  · rintro ⟨u, c, d⟩ v hv
    cases hv
    cases d <;> simp [handlePress, resolvedPressed]
  · rintro ty ⟨iv, c⟩ v item hv
    cases hv
    simp [accActivate, accResolvedValue]

/-- Witness for C6: a controlled, checked, enabled switch keeps its
internal copy, renders the prop, and reports `false` to the parent. -/
theorem controlled_widgets_defer_witness :
    (handleToggle ⟨false, some true, false⟩).1 = ⟨false, some true, false⟩ ∧
    resolvedChecked ⟨false, some true, false⟩ = true ∧
    (handleToggle ⟨false, some true, false⟩).2 = [false] := by
  have h := controlled_widgets_defer.1 ⟨false, some true, false⟩ true rfl
  exact ⟨h.1, h.2.1, h.2.2 rfl⟩

/-- Claim C7: an activation of a non-disabled switch or toggle flips
the resolved checked/pressed state (through the internal state when
uncontrolled, through the parent callback's value when controlled) and
reports the flipped value; when disabled, the activation is a no-op:
state unchanged and the change callback not invoked. -/
theorem binary_widget_toggle :
    (∀ s : SwitchState,
      (s.disabled = false →
        (handleToggle s).2 = [! resolvedChecked s] ∧
        nextResolvedChecked s = ! resolvedChecked s) ∧
      (s.disabled = true →
        (handleToggle s).1 = s ∧ (handleToggle s).2 = [])) ∧
    (∀ t : ToggleState,
      (t.disabled = false →
        (handlePress t).2 = [! resolvedPressed t] ∧
        nextResolvedPressed t = ! resolvedPressed t) ∧
      (t.disabled = true →
        (handlePress t).1 = t ∧ (handlePress t).2 = [])) := by
  constructor
  · rintro ⟨u, c, d⟩
    cases d <;> cases c <;>
      simp [handleToggle, resolvedChecked, nextResolvedChecked]
  · rintro ⟨u, c, d⟩
    cases d <;> cases c <;>
      simp [handlePress, resolvedPressed, nextResolvedPressed]

/-- Witness for C7: an enabled uncontrolled unchecked switch flips to
checked; a disabled one stays put with no callback. -/
theorem binary_widget_toggle_witness :
    (handleToggle ⟨false, none, false⟩).2 = [true] ∧
    nextResolvedChecked ⟨false, none, false⟩ = true ∧
    (handleToggle ⟨false, none, true⟩).1 = ⟨false, none, true⟩ ∧
    (handleToggle ⟨false, none, true⟩).2 = [] := by
  have h1 := (binary_widget_toggle.1 ⟨false, none, false⟩).1 rfl
  have h2 := (binary_widget_toggle.1 ⟨false, none, true⟩).2 rfl
  exact ⟨h1.1, h1.2, h2.1, h2.2⟩

/-- Claim C8: when a Feed or Music list fetch gets a store error or a
thrown exception, the handler logs once to the console, raises no
alert, leaves the previously rendered list untouched, stops the loading
and refreshing indicators, and issues no retry (exactly one request per
run). -/
theorem fetch_failure_silent :
    ∀ (s : FeedState) (m : MusicState),
      ((fetchLetters s .err).1 = { s with loading := false, refreshing := false } ∧
        (fetchLetters s .err).2 = ⟨1, [], 1⟩) ∧
      ((fetchLetters s .exn).1 = { s with loading := false, refreshing := false } ∧
        (fetchLetters s .exn).2 = ⟨1, [], 1⟩) ∧
      ((fetchPlaylists m .err).1 = { m with loading := false, refreshing := false } ∧
        (fetchPlaylists m .err).2 = ⟨1, [], 1⟩) ∧
      ((fetchPlaylists m .exn).1 = { m with loading := false, refreshing := false } ∧
        (fetchPlaylists m .exn).2 = ⟨1, [], 1⟩) := by
  intro s m
  exact ⟨⟨rfl, rfl⟩, ⟨rfl, rfl⟩, ⟨rfl, rfl⟩, ⟨rfl, rfl⟩⟩

/-- Claim C9: a Diary submission with a selected photo whose client-side
base64 conversion throws is not aborted: the error is caught and
alerted, and the insert call is still made with exactly one row whose
image reference is null. -/
theorem conversion_failure_continues (f : DiaryFormRich) (uri : Str)
    (r : InsertOutcome)
    (hm : jsTrim f.message ≠ []) (ha : jsTrim f.author ≠ [])
    (hi : f.image = some uri) :
    (handleSubmitRich f .err r).inserts =
      [⟨jsTrim f.message, jsTrim f.author, none⟩] ∧
    imagenProblemaAlert ∈ (handleSubmitRich f .err r).alerts := by
  have hcond : ¬ (jsTrim f.message = [] ∨ jsTrim f.author = []) := by tauto
  cases r <;> simp [handleSubmitRich, hcond, hi]

/-- Witness for C9: a concrete valid submission with a photo and a
failing conversion still inserts one row with a null image. -/
theorem conversion_failure_continues_witness :
    (handleSubmitRich ⟨chars "hola", chars "Ana", some (chars "u")⟩ .err .ok).inserts =
      [⟨jsTrim (chars "hola"), jsTrim (chars "Ana"), none⟩] ∧
    imagenProblemaAlert ∈
      (handleSubmitRich ⟨chars "hola", chars "Ana", some (chars "u")⟩ .err .ok).alerts :=
  conversion_failure_continues ⟨chars "hola", chars "Ana", some (chars "u")⟩
    (chars "u") .ok (by decide) (by decide) rfl

/-- Counterexample to C10 as stated: with item "a" open, toggling item
"b" twice ends with the accordion closed (value ""), not with the
original value "a" restored. -/
theorem accordion_double_toggle_counterexample :
    toggleItem .single (toggleItem .single (.strv (chars "a")) (chars "b"))
        (chars "b") = .strv [] ∧
    AccValue.strv [] ≠ .strv (chars "a") := by decide

/-- Claim C10 (amended): for a `single` accordion, at most one item is
open in every reachable state (the value stays a single string);
toggling the open item sets the value to the empty string, toggling any
other item makes that item the unique open one, and toggling the same
item twice restores the original value when that item was open or the
accordion was closed — if a different item was open, the double toggle
instead leaves the accordion closed. -/
theorem accordion_single_invariants :
    (∀ (v a b : Str), isItemOpen (.strv v) a = true →
      isItemOpen (.strv v) b = true → a = b) ∧
    (∀ (v item : Str), ∃ w, toggleItem .single (.strv v) item = .strv w) ∧
    (∀ item : Str, toggleItem .single (.strv item) item = .strv []) ∧
    (∀ (v item : Str), v ≠ item →
      toggleItem .single (.strv v) item = .strv item ∧
      isItemOpen (toggleItem .single (.strv v) item) item = true ∧
      ∀ other : Str, other ≠ item →
        isItemOpen (toggleItem .single (.strv v) item) other = false) ∧
    (∀ (v item : Str), v = item ∨ v = [] →
      toggleItem .single (toggleItem .single (.strv v) item) item = .strv v) ∧
    (∀ (v item : Str), v ≠ item → v ≠ [] →
      toggleItem .single (toggleItem .single (.strv v) item) item = .strv []) := by
  refine ⟨?_, ?_, ?_, ?_, ?_, ?_⟩
  · intro v a b hva hvb
    simp only [isItemOpen, beq_iff_eq] at hva hvb
    rw [← hva, ← hvb]
  · intro v item
    by_cases h : v = item <;> simp [toggleItem, h]
  · intro item
    simp [toggleItem]
  · intro v item h
    refine ⟨by simp [toggleItem, h], by simp [toggleItem, h, isItemOpen], ?_⟩
    intro other ho
    simp [toggleItem, h, isItemOpen, ho, Ne.symm ho]
  · intro v item h
    rcases h with h | h
    · subst h
      by_cases h0 : v = []
      · subst h0
        simp [toggleItem]
      · simp [toggleItem, h0, Ne.symm h0]
    · subst h
      by_cases h0 : ([] : Str) = item
      · rw [← h0]
        simp [toggleItem]
      · simp [toggleItem, h0]
  · intro v item hv h0
    simp [toggleItem, hv]

/-- Witness for C10: double-toggling the open item "x" restores it, and
with "a" open a single toggle of "b" makes "b" the unique open item. -/
theorem accordion_single_invariants_witness :
    toggleItem .single (toggleItem .single (.strv (chars "x")) (chars "x"))
        (chars "x") = .strv (chars "x") ∧
    toggleItem .single (.strv (chars "a")) (chars "b") = .strv (chars "b") := by
  constructor
  · exact accordion_single_invariants.2.2.2.2.1 (chars "x") (chars "x") (Or.inl rfl)
  · exact (accordion_single_invariants.2.2.2.1 (chars "a") (chars "b") (by decide)).1

end BM
